import Mathlib

/-!
# ParkingBrakeMFD: the auto-park evaluator and the manual confirm gate

A shallow embedding of `src/ParkingBrakeMFD.cpp`.

* The module's globals (`AutoPark`, `ParkMode`, `SpeedLimit`, `wantToLand`,
  `wantToLandTime`) and the part of the host simulation the module reads and
  writes (the vessel table and the log) are the fields of one state record,
  `Sim`, which every operation takes and returns.
* A `VESSEL*` is the index of the vessel in the host's vessel table.
* A C++ `double` that the module only compares (`<`, `!=`: ground speed, speed
  limit, thruster level) is the rational number it denotes. The system time
  enters the sum `wantToLandTime + 5.0`, so system times are `Double`s, the
  finite binary64 values, and the sum is rounded to the nearest binary64 value
  by `roundDouble`. Infinities and NaN are left out.
* C++ `int` values are integers; `%` is the truncating remainder `Int.tmod`.
-/

namespace ParkingBrake

/-! ## Data model -/

/-- The C++ unscoped enum `PARKMODE { LOWSPEED, GLUE, LASTENTRY }`, held as its
integer value: a cast `PARKMODE(n)` stores `n` whatever it is. -/
abbrev PARKMODE := Int

/-- Enumerator `LOWSPEED` of `PARKMODE`. -/
def LOWSPEED : PARKMODE := 0

/-- Enumerator `GLUE` of `PARKMODE`. -/
def GLUE : PARKMODE := 1

/-- Enumerator `LASTENTRY` of `PARKMODE`: the number of defined modes. -/
def LASTENTRY : PARKMODE := 2

/-- Two's complement wrap of an integer into the range of a 32-bit `int`. -/
def wrapInt32 (x : Int) : Int := (x + 2147483648) % 4294967296 - 2147483648

/-! ## Binary64 values -/

/-- A finite C++ `double` (IEEE 754 binary64): the value `mant * 2 ^ exp` with a
mantissa below `2 ^ 53` in absolute value and an exponent from -1074 to 971.
One value may have several such pairs; the module only copies and compares
doubles and adds them, all of which go by the value `toRat`. -/
structure Double where
  mant : Int
  exp : Int
  mant_lt : mant.natAbs < 9007199254740992
  exp_ge : -1074 ≤ exp
  exp_le : exp ≤ 971
  deriving DecidableEq

/-- The rational number a `Double` denotes. -/
def Double.toRat (d : Double) : ℚ := (d.mant : ℚ) * (2 : ℚ) ^ d.exp

/-- The exponent of the binade of `x`: the `e` with `2 ^ e ≤ |x| < 2 ^ (e + 1)`,
and -1022 throughout the subnormal range `|x| < 2 ^ (-1022)`. -/
def binadeExp (x : ℚ) : Int :=
  if |x| < (2 : ℚ) ^ (-1022 : Int) then -1022 else Int.log 2 |x|

/-- The spacing of the binary64 values in the binade of `x` (53 bits of
mantissa). -/
def ulp (x : ℚ) : ℚ := (2 : ℚ) ^ (binadeExp x - 52)

/-- Rounding to the nearest integer, a tie going to the even one. -/
def roundHalfEven (y : ℚ) : Int :=
  if y - ⌊y⌋ < 1 / 2 then ⌊y⌋
  else if 1 / 2 < y - ⌊y⌋ then ⌊y⌋ + 1
  else if ⌊y⌋ % 2 = 0 then ⌊y⌋
  else ⌊y⌋ + 1

/-- The binary64 value nearest to `x`, ties to even: the rounding of the result
of a `double` operation in the default rounding mode. Overflow to infinity is
not modelled; the one sum of the module, a finite double plus `5.0`, stays at
or below the largest finite double (`roundDouble_add_five_finite`). -/
def roundDouble (x : ℚ) : ℚ := (roundHalfEven (x / ulp x) : ℚ) * ulp x

/-- The largest finite `double`, `(2 ^ 53 - 1) * 2 ^ 971`. -/
def maxDouble : Double :=
  { mant := 9007199254740991
    exp := 971
    mant_lt := by decide
    exp_ge := by decide
    exp_le := by decide }

/-! ## Host constants and state -/

/-- Host key code `OAPI_KEY_O` (from the host SDK header, keyboard scan code of O). -/
def OAPI_KEY_O : Nat := 0x18

/-- Host key code `OAPI_KEY_N` (from the host SDK header, keyboard scan code of N). -/
def OAPI_KEY_N : Nat := 0x31

/-- Host key code `OAPI_KEY_M` (from the host SDK header, keyboard scan code of M). -/
def OAPI_KEY_M : Nat := 0x32

/-- What the module reads from a host vessel: `GetFlightStatus`, `GroundContact`,
`GetGroundspeed`, the thruster levels in `GetThrusterHandleByIndex` order
(`GetThrusterCount` is the length), `GetEquPos` and `oapiGetHeading`. -/
structure VESSEL where
  flightStatus : Int
  groundContact : Bool
  groundspeed : ℚ
  thrusterLevels : List ℚ
  longitude : ℚ
  latitude : ℚ
  heading : ℚ
  deriving DecidableEq

/-- The fields of the host's `VESSELSTATUS2` that `ParkVessel` fills in. -/
structure VESSELSTATUS2 where
  version : Nat
  status : Int
  arot_x : ℚ
  surf_lng : ℚ
  surf_lat : ℚ
  surf_hdg : ℚ
  deriving DecidableEq

/-- The module's globals together with the host state it works on. `parkLog`
holds, oldest first, the vessel of every "Parking Brake parked ..." log record. -/
structure Sim where
  AutoPark : Bool
  ParkMode : PARKMODE
  SpeedLimit : ℚ
  wantToLand : Bool
  wantToLandTime : Double
  vessels : List VESSEL
  parkLog : List Nat
  deriving DecidableEq

/-- The globals as initialised at their declarations (lines 42-47), over a given
vessel table and an empty log. -/
def initialSim (vessels : List VESSEL) : Sim :=
  { AutoPark := true
    ParkMode := LOWSPEED
    SpeedLimit := 1 / 10
    wantToLand := false
    wantToLandTime :=
      { mant := -10, exp := 0, mant_lt := by decide, exp_ge := by decide, exp_le := by decide }
    vessels := vessels
    parkLog := [] }

/-- The data members of the MFD class `Parker`; `Vessel` is the target vessel. -/
structure Parker where
  W : Nat
  H : Nat
  Vessel : Nat
  deriving DecidableEq

/-! ## The landing action -/

/-- Host call `VESSEL::DefSetStateEx`: the vessel takes the flight status and the
surface position of the status record it is given. -/
def DefSetStateEx (ves : VESSEL) (vs : VESSELSTATUS2) : VESSEL :=
  { ves with
    flightStatus := vs.status
    longitude := vs.surf_lng
    latitude := vs.surf_lat
    heading := vs.surf_hdg }

/-- The function `ParkVessel(VESSEL* ves)`: replace the state of the vessel by a
landed state at its current surface position, write the log record, and reset
`wantToLand`. -/
def ParkVessel (ves : Nat) (s : Sim) : Sim :=
  match s.vessels[ves]? with
  | none => s
  | some v =>
    let vs : VESSELSTATUS2 :=
      { version := 2
        status := 1
        arot_x := 10
        surf_lng := v.longitude
        surf_lat := v.latitude
        surf_hdg := v.heading }
    { s with
      vessels := s.vessels.set ves (DefSetStateEx v vs)
      parkLog := s.parkLog ++ [ves]
      wantToLand := false }

/-! ## The operator commands -/

/-- The method `Parker::ConsumeKeyBuffered(DWORD key)`, with `syst` the value of
`oapiGetSysTime()`. The result is `none` only when the MFD's target vessel is not
in the vessel table (a dangling `Vessel` pointer) and the key dereferences it.
The test `syst < wantToLandTime + 5.0` compares `syst` with the double sum, that
is with the exact sum rounded to binary64. -/
def ConsumeKeyBuffered (self : Parker) (key : Nat) (syst : Double) (s : Sim) :
    Option (Bool × Sim) :=
  if key = OAPI_KEY_O then
    some (true, { s with AutoPark := !s.AutoPark })
  else if key = OAPI_KEY_N then
    match s.vessels[self.Vessel]? with
    | none => none
    | some v =>
      if v.groundContact = true then
        some (true, ParkVessel self.Vessel s)
      else if s.wantToLand = true ∧
          syst.toRat < roundDouble (s.wantToLandTime.toRat + 5) then
        some (true, ParkVessel self.Vessel s)
      else
        some (true, { s with wantToLand := true, wantToLandTime := syst })
  else if key = OAPI_KEY_M then
    some (true, { s with ParkMode := (wrapInt32 (s.ParkMode + 1)).tmod LASTENTRY })
  else
    some (false, s)

/-! ## The per-tick evaluator -/

/-- The inner `for` loop of `opcPreStep` over the remaining thruster levels, from
the current value of `thrustersActive`; the result is its value after the loop.
An active thruster increments it and breaks out of the loop. -/
def thrusterLoop : List ℚ → Int → Int
  | [], thrustersActive => thrustersActive
  | level :: rest, thrustersActive =>
    if level ≠ 0 then thrustersActive + 1
    else thrusterLoop rest thrustersActive

/-- The body of the outer `for` loop of `opcPreStep` for vessel index `i`. -/
def opcPreStepBody (i : Nat) (s : Sim) : Sim :=
  match s.vessels[i]? with
  | none => s
  | some v =>
    let flightStatus := v.flightStatus
    if (flightStatus = 0 ∨ flightStatus = 2) ∧ v.groundContact = true then
      let thrustersActive := thrusterLoop v.thrusterLevels 0
      if thrustersActive = 0 then
        if s.ParkMode = GLUE ∨ v.groundspeed < s.SpeedLimit then
          ParkVessel i s
        else s
      else s
    else s

/-- The outer `for` loop of `opcPreStep` from index `i`; the loop condition
`i < oapiGetVesselCount()` is read again on every round. `fuel` bounds the number
of rounds. -/
def opcPreStepLoop : Nat → Nat → Sim → Sim
  | 0, _, s => s
  | fuel + 1, i, s =>
    if i < s.vessels.length then opcPreStepLoop fuel (i + 1) (opcPreStepBody i s)
    else s

/-- The callback `opcPreStep(simt, simdt, mjd)`; the three arguments are not
used by the code. The loop gets one round of fuel per vessel, which is what it
needs since no round changes the vessel count. -/
def opcPreStep (s : Sim) : Sim :=
  if s.AutoPark = true then opcPreStepLoop s.vessels.length 0 s
  else s

/-- The vessels for which the run of `opcPreStep` from `s` called `ParkVessel`,
in call order: the records that run added to the log. -/
def parkedThisStep (s : Sim) : List Nat :=
  (opcPreStep s).parkLog.drop s.parkLog.length

/-- The test one round of the evaluator applies to vessel index `i` in `s`. -/
def parkTest (s : Sim) (i : Nat) : Bool :=
  match s.vessels[i]? with
  | none => false
  | some v =>
    decide ((v.flightStatus = 0 ∨ v.flightStatus = 2) ∧ v.groundContact = true ∧
      thrusterLoop v.thrusterLevels 0 = 0 ∧ (s.ParkMode = GLUE ∨ v.groundspeed < s.SpeedLimit))

/-! ## Start-up configuration -/

/-- The items of `MFD\ParkingBrake.cfg`; `none` is an item the host's
`oapiReadItem_*` call cannot read (it then returns false and leaves the
variable as it was). -/
structure Config where
  DefAutoPark : Option Bool
  DefParkMode : Option Int
  DefSpeedLimit : Option ℚ
  deriving DecidableEq

/-- The configuration part of `InitModule`, lines 294-298: the new globals and
the diagnostic log lines written. -/
def InitModule (cfg : Config) (s : Sim) : Sim × List String :=
  let r1 : Bool × List String :=
    match cfg.DefAutoPark with
    | some b => (b, [])
    | none => (s.AutoPark, ["Parking Brake could not read AutoPark setting."])
  let r2 : Int × List String :=
    match cfg.DefParkMode with
    | some n => (n, [])
    | none => (LOWSPEED, ["Parking Brake could not read ParkMode setting."])
  let parkMode := r2.1
  let r3 : ℚ × List String :=
    match cfg.DefSpeedLimit with
    | some x => (x, [])
    | none => (s.SpeedLimit, ["Parking Brake could not read SpeedLimit setting."])
  ({ s with
      AutoPark := r1.1
      ParkMode := parkMode.tmod LASTENTRY
      SpeedLimit := r3.1 },
    r1.2 ++ r2.2 ++ r3.2)

/-! ## Sample states -/

/-- A vessel in free flight status that rests on the ground with its two
thrusters off, moving at the given ground speed. -/
def restingVessel (speed : ℚ) : VESSEL :=
  { flightStatus := 0
    groundContact := true
    groundspeed := speed
    thrusterLevels := [0, 0]
    longitude := 0
    latitude := 0
    heading := 0 }

/-- A vessel in free flight status without ground contact, thrusters off. -/
def airborneVessel : VESSEL :=
  { restingVessel 30 with groundContact := false }

/-- A state with the initial globals (auto-park on, low speed mode, limit 0.1)
over five vessels: resting exactly at the limit, resting below the limit,
resting with the middle one of three thrusters on, airborne, and already
landed. -/
def sampleSim : Sim :=
  initialSim
    [ restingVessel (1 / 10),
      restingVessel (1 / 20),
      { restingVessel 0 with thrusterLevels := [0, 1 / 2, 0] },
      airborneVessel,
      { restingVessel 0 with flightStatus := 1 } ]

/-- An MFD instance whose target vessel is the one at the given index. -/
def sampleMFD (target : Nat) : Parker :=
  { W := 256, H := 256, Vessel := target }

/-- The state `sampleSim` with a "land now" request pending since system
time `t`. -/
def pendingSim (t : Double) : Sim :=
  { sampleSim with wantToLand := true, wantToLandTime := t }

/-- The `double` of a small integer number of seconds. -/
def seconds (n : Int) (h : n.natAbs < 9007199254740992) : Double :=
  { mant := n, exp := 0, mant_lt := h, exp_ge := by decide, exp_le := by decide }

/-- The `double` nearest to 4.9, `0x1.399999999999ap+2`. -/
def time4_9 : Double :=
  { mant := 2758454771764429
    exp := -49
    mant_lt := by decide
    exp_ge := by decide
    exp_le := by decide }

/-- The `double` nearest to 5.1, `0x1.4666666666666p+2`. -/
def time5_1 : Double :=
  { mant := 2871044762448691
    exp := -49
    mant_lt := by decide
    exp_ge := by decide
    exp_le := by decide }

/-- The `double` nearest to 0.3, `0x1.3333333333333p-2`. -/
def time0_3 : Double :=
  { mant := 5404319552844595
    exp := -54
    mant_lt := by decide
    exp_ge := by decide
    exp_le := by decide }

/-- The `double` nearest to 5.3, `0x1.5333333333333p+2`. -/
def time5_3 : Double :=
  { mant := 5967269506265907
    exp := -50
    mant_lt := by decide
    exp_ge := by decide
    exp_le := by decide }

/-! ## Lemmas on binary64 rounding -/

theorem ulp_pos (x : ℚ) : 0 < ulp x := by
  unfold ulp; positivity

theorem binadeExp_ge (x : ℚ) : -1022 ≤ binadeExp x := by
  unfold binadeExp
  split
  · exact le_refl _
  · rename_i h
    have hx : (2 : ℚ) ^ (-1022 : Int) ≤ |x| := not_lt.mp h
    have hpos : (0 : ℚ) < |x| := lt_of_lt_of_le (by positivity) hx
    exact (Int.zpow_le_iff_le_log (by decide) hpos).mp (by exact_mod_cast hx)

theorem zpow_binadeExp_le (x : ℚ) (h : binadeExp x ≠ -1022) :
    (2 : ℚ) ^ binadeExp x ≤ |x| := by
  unfold binadeExp at h ⊢
  split
  · rename_i hlt; rw [if_pos hlt] at h; exact absurd rfl h
  · rename_i hge
    have hx : (2 : ℚ) ^ (-1022 : Int) ≤ |x| := not_lt.mp hge
    have hpos : (0 : ℚ) < |x| := lt_of_lt_of_le (by positivity) hx
    have := Int.zpow_log_le_self (b := 2) (by decide) hpos
    exact_mod_cast this

theorem binadeExp_eq (x : ℚ) (e : Int) (he : -1022 ≤ e) (hlo : (2 : ℚ) ^ e ≤ |x|)
    (hhi : |x| < (2 : ℚ) ^ (e + 1)) : binadeExp x = e := by
  have h1022 : (2 : ℚ) ^ (-1022 : Int) ≤ (2 : ℚ) ^ e := zpow_le_zpow_right₀ (by norm_num) he
  have hx : ¬ |x| < (2 : ℚ) ^ (-1022 : Int) := not_lt.mpr (le_trans h1022 hlo)
  have hpos : (0 : ℚ) < |x| := lt_of_lt_of_le (by positivity) hlo
  unfold binadeExp
  rw [if_neg hx]
  have h1 : e ≤ Int.log 2 |x| := (Int.zpow_le_iff_le_log (by decide) hpos).mp (by exact_mod_cast hlo)
  have h2 : Int.log 2 |x| < e + 1 := (Int.lt_zpow_iff_log_lt (by decide) hpos).mp (by exact_mod_cast hhi)
  omega

theorem roundHalfEven_le_ceil (y : ℚ) : roundHalfEven y ≤ ⌈y⌉ := by
  unfold roundHalfEven
  have hfl : ⌊y⌋ ≤ ⌈y⌉ := Int.floor_le_ceil y
  by_cases hint : (⌊y⌋ : ℚ) = y
  · have h0 : y - ⌊y⌋ < 1 / 2 := by rw [hint]; norm_num
    rw [if_pos h0]; exact hfl
  · have hlt : (⌊y⌋ : ℚ) < y := lt_of_le_of_ne (Int.floor_le y) hint
    have hc : ⌊y⌋ + 1 ≤ ⌈y⌉ := by
      have : (⌊y⌋ : ℚ) < (⌈y⌉ : ℚ) := lt_of_lt_of_le hlt (Int.le_ceil y)
      have : ⌊y⌋ < ⌈y⌉ := by exact_mod_cast this
      omega
    split
    · exact hfl
    · split
      · exact hc
      · split
        · exact hfl
        · exact hc

theorem floor_le_roundHalfEven (y : ℚ) : ⌊y⌋ ≤ roundHalfEven y := by
  unfold roundHalfEven
  split
  · exact le_refl _
  · split
    · omega
    · split
      · exact le_refl _
      · omega

theorem roundHalfEven_eq (y : ℚ) (n : Int) (h : |y - n| < 1 / 2) : roundHalfEven y = n := by
  have h1 := (abs_lt.mp h).1
  have h2 := (abs_lt.mp h).2
  unfold roundHalfEven
  by_cases hge : (n : ℚ) ≤ y
  · have hf : ⌊y⌋ = n := Int.floor_eq_iff.mpr ⟨hge, by linarith⟩
    rw [hf, if_pos (by linarith)]
  · have hlt : y < n := not_le.mp hge
    have hf : ⌊y⌋ = n - 1 := Int.floor_eq_iff.mpr ⟨by push_cast; linarith, by push_cast; linarith⟩
    rw [hf]
    have c1 : ¬ (y - ((n - 1 : Int) : ℚ) < 1 / 2) := by push_cast; linarith
    have c2 : 1 / 2 < y - ((n - 1 : Int) : ℚ) := by push_cast; linarith
    rw [if_neg c1, if_pos c2]; omega

/-- The values of a binade lie on its grid: a `Double` is a multiple of the
spacing at `x` or lies strictly inside the lower bound of the binade of `x`. -/
theorem Double.grid (d : Double) (x : ℚ) :
    (∃ k : Int, d.toRat = (k : ℚ) * ulp x) ∨
      (|d.toRat| < (2 : ℚ) ^ binadeExp x ∧ (2 : ℚ) ^ binadeExp x ≤ |x|) := by
  have he := binadeExp_ge x
  by_cases hf : binadeExp x - 52 ≤ d.exp
  · left
    obtain ⟨n, hn⟩ := Int.eq_ofNat_of_zero_le (show 0 ≤ d.exp - (binadeExp x - 52) by omega)
    refine ⟨d.mant * 2 ^ n, ?_⟩
    unfold Double.toRat ulp
    have hsplit : d.exp = (n : Int) + (binadeExp x - 52) := by omega
    rw [hsplit, zpow_add₀ (by norm_num : (2 : ℚ) ≠ 0)]
    push_cast
    rw [zpow_natCast]
    ring
  · right
    have hf' : d.exp + 53 ≤ binadeExp x := by omega
    have hexp := d.exp_ge
    constructor
    · unfold Double.toRat
      rw [abs_mul, abs_of_pos (show (0 : ℚ) < 2 ^ d.exp by positivity)]
      have hm : |(d.mant : ℚ)| < (2 : ℚ) ^ (53 : Int) := by
        have h := d.mant_lt
        have h' : ((d.mant.natAbs : Int) : ℚ) < 9007199254740992 := by exact_mod_cast h
        rw [Int.natCast_natAbs] at h'
        have e53 : (2 : ℚ) ^ (53 : Int) = 9007199254740992 := by norm_num
        rw [e53]
        exact_mod_cast h'
      calc |(d.mant : ℚ)| * 2 ^ d.exp < (2 : ℚ) ^ (53 : Int) * 2 ^ d.exp :=
            mul_lt_mul_of_pos_right hm (by positivity)
        _ = (2 : ℚ) ^ (d.exp + 53) := by
            rw [zpow_add₀ (by norm_num : (2 : ℚ) ≠ 0)]; ring
        _ ≤ (2 : ℚ) ^ binadeExp x := zpow_le_zpow_right₀ (by norm_num) hf'
    · exact zpow_binadeExp_le x (by omega)

theorem zpow_binadeExp_eq (x : ℚ) : (2 : ℚ) ^ binadeExp x = 4503599627370496 * ulp x := by
  unfold ulp
  rw [zpow_sub₀ (by norm_num : (2 : ℚ) ≠ 0)]
  have : (2 : ℚ) ^ (52 : Int) = 4503599627370496 := by norm_num
  rw [this]
  field_simp

/-- Rounding never passes a `Double`: from above. -/
theorem roundDouble_le_of_le (d : Double) (x : ℚ) (h : x ≤ d.toRat) :
    roundDouble x ≤ d.toRat := by
  have hq := ulp_pos x
  have key : ∀ k : Int, x ≤ (k : ℚ) * ulp x → roundDouble x ≤ (k : ℚ) * ulp x := by
    intro k hk
    have h1 : x / ulp x ≤ (k : ℚ) := (div_le_iff₀ hq).mpr hk
    have h2 : ⌈x / ulp x⌉ ≤ k := Int.ceil_le.mpr h1
    have h3 : roundHalfEven (x / ulp x) ≤ k := le_trans (roundHalfEven_le_ceil _) h2
    unfold roundDouble
    exact mul_le_mul_of_nonneg_right (by exact_mod_cast h3) (le_of_lt hq)
  rcases d.grid x with ⟨k, hk⟩ | ⟨hd, hx⟩
  · rw [hk] at h ⊢; exact key k h
  · have hxneg : x < 0 := by
      by_contra hnn
      have hx0 : 0 ≤ x := not_lt.mp hnn
      rw [abs_of_nonneg hx0] at hx
      have : d.toRat ≤ |d.toRat| := le_abs_self _
      linarith
    rw [abs_of_neg hxneg] at hx
    have hB := zpow_binadeExp_eq x
    have hk : x ≤ ((-4503599627370496 : Int) : ℚ) * ulp x := by push_cast; linarith
    have := key _ hk
    have hd' := (abs_lt.mp hd).1
    push_cast at this
    linarith

/-- Rounding never passes a `Double`: from below. -/
theorem le_roundDouble_of_le (d : Double) (x : ℚ) (h : d.toRat ≤ x) :
    d.toRat ≤ roundDouble x := by
  have hq := ulp_pos x
  have key : ∀ k : Int, (k : ℚ) * ulp x ≤ x → (k : ℚ) * ulp x ≤ roundDouble x := by
    intro k hk
    have h1 : (k : ℚ) ≤ x / ulp x := (le_div_iff₀ hq).mpr hk
    have h2 : k ≤ ⌊x / ulp x⌋ := Int.le_floor.mpr h1
    have h3 : k ≤ roundHalfEven (x / ulp x) := le_trans h2 (floor_le_roundHalfEven _)
    unfold roundDouble
    exact mul_le_mul_of_nonneg_right (by exact_mod_cast h3) (le_of_lt hq)
  rcases d.grid x with ⟨k, hk⟩ | ⟨hd, hx⟩
  · rw [hk] at h ⊢; exact key k h
  · have hxpos : 0 ≤ x := by
      by_contra hnn
      have hx0 : x < 0 := not_le.mp hnn
      rw [abs_of_neg hx0] at hx
      have := (abs_lt.mp hd).1
      linarith
    rw [abs_of_nonneg hxpos] at hx
    have hB := zpow_binadeExp_eq x
    have hk : ((4503599627370496 : Int) : ℚ) * ulp x ≤ x := by push_cast; linarith
    have := key _ hk
    have hd' := (abs_lt.mp hd).2
    push_cast at this
    linarith

/-- A `Double` rounds to itself. -/
theorem roundDouble_toRat (d : Double) : roundDouble d.toRat = d.toRat :=
  le_antisymm (roundDouble_le_of_le d _ (le_refl _)) (le_roundDouble_of_le d _ (le_refl _))

/-- Evaluation of `roundDouble` from the binade and the nearest grid point. -/
theorem roundDouble_eval (x : ℚ) (e n : Int) (he : -1022 ≤ e) (hlo : (2 : ℚ) ^ e ≤ |x|)
    (hhi : |x| < (2 : ℚ) ^ (e + 1)) (hn : |x / (2 : ℚ) ^ (e - 52) - n| < 1 / 2) :
    roundDouble x = (n : ℚ) * (2 : ℚ) ^ (e - 52) := by
  unfold roundDouble ulp
  rw [binadeExp_eq x e he hlo hhi, roundHalfEven_eq _ n hn]

theorem Double.abs_toRat_le (d : Double) : |d.toRat| ≤ maxDouble.toRat := by
  unfold Double.toRat
  rw [abs_mul, abs_of_pos (show (0 : ℚ) < 2 ^ d.exp by positivity)]
  have hm : |(d.mant : ℚ)| ≤ 9007199254740991 := by
    have h := d.mant_lt
    have h' : ((d.mant.natAbs : Int) : ℚ) ≤ 9007199254740991 := by
      have : d.mant.natAbs ≤ 9007199254740991 := by omega
      exact_mod_cast this
    rw [Int.natCast_natAbs] at h'
    exact_mod_cast h'
  have he : (2 : ℚ) ^ d.exp ≤ (2 : ℚ) ^ (971 : Int) :=
    zpow_le_zpow_right₀ (by norm_num) d.exp_le
  have hmant : ((maxDouble.mant : Int) : ℚ) = 9007199254740991 := by
    simp [maxDouble]
  have hexp : maxDouble.exp = 971 := rfl
  rw [hmant, hexp]
  exact mul_le_mul hm he (by positivity) (by norm_num)

/-- The double sum of a finite double and `5.0` is finite: rounding the exact sum
gives a value within the range of the finite doubles. -/
theorem roundDouble_add_five_finite (t : Double) :
    |roundDouble (t.toRat + 5)| ≤ maxDouble.toRat := by
  have ht := abs_le.mp t.abs_toRat_le
  have hM : maxDouble.toRat = 9007199254740991 * (2 : ℚ) ^ (971 : Int) := by
    simp [maxDouble, Double.toRat]
  have hP : (16 : ℚ) ≤ (2 : ℚ) ^ (971 : Int) := by
    have : (2 : ℚ) ^ (4 : Int) ≤ (2 : ℚ) ^ (971 : Int) :=
      zpow_le_zpow_right₀ (by norm_num) (by decide)
    have e4 : (2 : ℚ) ^ (4 : Int) = 16 := by norm_num
    rw [e4] at this; exact this
  have h1023 : (2 : ℚ) ^ (1023 : Int) = 4503599627370496 * (2 : ℚ) ^ (971 : Int) := by
    rw [show (1023 : Int) = 52 + 971 by decide, zpow_add₀ (by norm_num : (2 : ℚ) ≠ 0)]
    norm_num
  have h1024 : (2 : ℚ) ^ (1023 + 1 : Int) = 9007199254740992 * (2 : ℚ) ^ (971 : Int) := by
    rw [show (1023 + 1 : Int) = 53 + 971 by decide, zpow_add₀ (by norm_num : (2 : ℚ) ≠ 0)]
    norm_num
  rw [abs_le]
  constructor
  · have hneg : (-maxDouble.toRat) = (Double.mk (-9007199254740991) 971 (by decide) (by decide)
        (by decide)).toRat := by
      simp [maxDouble, Double.toRat]
    rw [hneg]
    apply le_roundDouble_of_le
    rw [← hneg]; linarith [ht.1]
  · by_cases hx : t.toRat + 5 ≤ maxDouble.toRat
    · exact roundDouble_le_of_le maxDouble _ hx
    · have hgt : maxDouble.toRat < t.toRat + 5 := not_le.mp hx
      have hpos : 0 < t.toRat + 5 := by rw [hM] at hgt; nlinarith
      have heval := roundDouble_eval (t.toRat + 5) 1023 9007199254740991 (by decide)
        (by rw [abs_of_pos hpos, h1023]; rw [hM] at hgt; linarith)
        (by rw [abs_of_pos hpos, h1024]; rw [hM] at ht; linarith [ht.2])
        (by
          rw [show (1023 - 52 : Int) = 971 by decide]
          have hPpos : (0 : ℚ) < (2 : ℚ) ^ (971 : Int) := by positivity
          have hrw : (t.toRat + 5) / (2 : ℚ) ^ (971 : Int) - ((9007199254740991 : Int) : ℚ)
              = (t.toRat + 5 - 9007199254740991 * (2 : ℚ) ^ (971 : Int)) / (2 : ℚ) ^ (971 : Int) := by
            field_simp
            ring
          rw [hrw, abs_lt]
          rw [hM] at hgt ht
          constructor
          · rw [lt_div_iff₀ hPpos]; linarith
          · rw [div_lt_iff₀ hPpos]; linarith [ht.2])
      rw [heval, hM, show (1023 - 52 : Int) = 971 by decide]
      push_cast
      exact le_refl _

/-! ## Lemmas on the thruster scan -/

theorem thrusterLoop_zero_iff (levels : List ℚ) :
    thrusterLoop levels 0 = 0 ↔ ∀ level ∈ levels, level = 0 := by
  induction levels with
  | nil => simp [thrusterLoop]
  | cons level rest ih =>
    by_cases h : level = 0
    · simp [thrusterLoop, h, ih]
    · simp [thrusterLoop, h]

/-! ## Lemmas on the landing action -/

theorem ParkVessel_AutoPark (i : Nat) (s : Sim) :
    (ParkVessel i s).AutoPark = s.AutoPark := by
  unfold ParkVessel; split <;> rfl

theorem ParkVessel_ParkMode (i : Nat) (s : Sim) :
    (ParkVessel i s).ParkMode = s.ParkMode := by
  unfold ParkVessel; split <;> rfl

theorem ParkVessel_SpeedLimit (i : Nat) (s : Sim) :
    (ParkVessel i s).SpeedLimit = s.SpeedLimit := by
  unfold ParkVessel; split <;> rfl

theorem ParkVessel_length (i : Nat) (s : Sim) :
    (ParkVessel i s).vessels.length = s.vessels.length := by
  unfold ParkVessel; split <;> simp

theorem ParkVessel_getElem_ne (i j : Nat) (s : Sim) (h : i ≠ j) :
    (ParkVessel i s).vessels[j]? = s.vessels[j]? := by
  unfold ParkVessel; split
  · rfl
  · simp [List.getElem?_set_ne h]

theorem ParkVessel_of_some (i : Nat) (s : Sim) (v : VESSEL) (h : s.vessels[i]? = some v) :
    (ParkVessel i s).parkLog = s.parkLog ++ [i] ∧
    (ParkVessel i s).wantToLand = false ∧
    (ParkVessel i s).wantToLandTime = s.wantToLandTime ∧
    ∃ v', (ParkVessel i s).vessels[i]? = some v' ∧ v'.flightStatus = 1 := by
  have hi : i < s.vessels.length := by
    rcases Nat.lt_or_ge i s.vessels.length with hlt | hge
    · exact hlt
    · rw [List.getElem?_eq_none hge] at h; cases h
  unfold ParkVessel
  rw [h]
  refine ⟨rfl, rfl, rfl, ?_⟩
  simp [hi, DefSetStateEx]

/-! ## Lemmas on the evaluator -/

theorem opcPreStepBody_eq (i : Nat) (s : Sim) :
    opcPreStepBody i s = if parkTest s i = true then ParkVessel i s else s := by
  unfold opcPreStepBody parkTest
  cases hv : s.vessels[i]? with
  | none => simp
  | some v =>
    simp only [decide_eq_true_eq]
    by_cases h1 : (v.flightStatus = 0 ∨ v.flightStatus = 2) ∧ v.groundContact = true
    · by_cases h2 : thrusterLoop v.thrusterLevels 0 = 0
      · by_cases h3 : s.ParkMode = GLUE ∨ v.groundspeed < s.SpeedLimit
        · rw [if_pos h1, if_pos h2, if_pos h3, if_pos ⟨h1.1, h1.2, h2, h3⟩]
        · rw [if_pos h1, if_pos h2, if_neg h3, if_neg (fun h => h3 h.2.2.2)]
      · rw [if_pos h1, if_neg h2, if_neg (fun h => h2 h.2.2.1)]
    · rw [if_neg h1, if_neg (fun h => h1 ⟨h.1, h.2.1⟩)]

theorem opcPreStepBody_length (i : Nat) (s : Sim) :
    (opcPreStepBody i s).vessels.length = s.vessels.length := by
  rw [opcPreStepBody_eq]; split
  · exact ParkVessel_length i s
  · rfl

theorem opcPreStepBody_parkTest (i j : Nat) (s : Sim) (h : i ≠ j) :
    parkTest (opcPreStepBody i s) j = parkTest s j := by
  rw [opcPreStepBody_eq]; split
  · unfold parkTest
    rw [ParkVessel_getElem_ne i j s h, ParkVessel_ParkMode, ParkVessel_SpeedLimit]
  · rfl

theorem opcPreStepBody_parkLog (i : Nat) (s : Sim) (hi : i < s.vessels.length) :
    (opcPreStepBody i s).parkLog = s.parkLog ++ (if parkTest s i = true then [i] else []) := by
  rw [opcPreStepBody_eq]
  by_cases h : parkTest s i = true
  · rw [if_pos h, if_pos h]
    have hv : s.vessels[i]? = some (s.vessels[i]) := List.getElem?_eq_getElem hi
    exact (ParkVessel_of_some i s _ hv).1
  · rw [if_neg h, if_neg h]; simp

theorem opcPreStepLoop_parkLog (fuel : Nat) :
    ∀ (i : Nat) (s : Sim), i + fuel = s.vessels.length →
      (opcPreStepLoop fuel i s).parkLog
        = s.parkLog ++ (List.range' i fuel).filter (parkTest s) := by
  induction fuel with
  | zero => intro i s _; simp [opcPreStepLoop]
  | succ fuel ih =>
    intro i s h
    have hi : i < s.vessels.length := by omega
    have hlen := opcPreStepBody_length i s
    rw [opcPreStepLoop, if_pos hi, ih (i + 1) (opcPreStepBody i s) (by omega),
      opcPreStepBody_parkLog i s hi, List.range'_succ, List.filter_cons]
    have hcongr : (List.range' (i + 1) fuel).filter (parkTest (opcPreStepBody i s))
        = (List.range' (i + 1) fuel).filter (parkTest s) := by
      apply List.filter_congr
      intro j hj
      have hj' := (List.mem_range'_1.mp hj).1
      exact opcPreStepBody_parkTest i j s (by omega)
    rw [hcongr]
    by_cases ht : parkTest s i = true
    · simp [ht]
    · simp [ht]

theorem parkedThisStep_eq (s : Sim) :
    parkedThisStep s
      = if s.AutoPark = true then (List.range s.vessels.length).filter (parkTest s) else [] := by
  unfold parkedThisStep opcPreStep
  by_cases h : s.AutoPark = true
  · rw [if_pos h, if_pos h, opcPreStepLoop_parkLog _ 0 s (by omega), List.range_eq_range']
    simp
  · rw [if_neg h, if_neg h]; simp

theorem mem_parkedThisStep (s : Sim) (i : Nat) (v : VESSEL) (hv : s.vessels[i]? = some v) :
    i ∈ parkedThisStep s ↔
      s.AutoPark = true ∧ (v.flightStatus = 0 ∨ v.flightStatus = 2) ∧ v.groundContact = true ∧
        thrusterLoop v.thrusterLevels 0 = 0 ∧
        (s.ParkMode = GLUE ∨ v.groundspeed < s.SpeedLimit) := by
  have hi : i < s.vessels.length := by
    rcases Nat.lt_or_ge i s.vessels.length with hlt | hge
    · exact hlt
    · rw [List.getElem?_eq_none hge] at hv; cases hv
  rw [parkedThisStep_eq]
  by_cases h : s.AutoPark = true
  · rw [if_pos h, List.mem_filter, List.mem_range]
    simp only [parkTest, hv, decide_eq_true_eq, h, hi, true_and]
  · rw [if_neg h]; simp [h]

theorem opcPreStepLoop_fuel (fuel : Nat) :
    ∀ (i : Nat) (s : Sim) (extra : Nat), s.vessels.length ≤ i + fuel →
      opcPreStepLoop (fuel + extra) i s = opcPreStepLoop fuel i s := by
  induction fuel with
  | zero =>
    intro i s extra h
    cases extra with
    | zero => rfl
    | succ extra =>
      have hi : ¬ i < s.vessels.length := by omega
      simp [opcPreStepLoop, hi]
  | succ fuel ih =>
    intro i s extra h
    rw [show fuel + 1 + extra = (fuel + extra) + 1 by omega, opcPreStepLoop, opcPreStepLoop]
    by_cases hi : i < s.vessels.length
    · rw [if_pos hi, if_pos hi]
      exact ih (i + 1) (opcPreStepBody i s) extra (by rw [opcPreStepBody_length]; omega)
    · rw [if_neg hi, if_neg hi]

theorem getElem_lt_of_some (s : Sim) (i : Nat) (v : VESSEL) (hv : s.vessels[i]? = some v) :
    i < s.vessels.length := by
  rcases Nat.lt_or_ge i s.vessels.length with hlt | hge
  · exact hlt
  · rw [List.getElem?_eq_none hge] at hv; cases hv

/-! ## Lemmas on the "land now" command -/

theorem keyN_contact_eq (self : Parker) (syst : Double) (s : Sim) (v : VESSEL)
    (hv : s.vessels[self.Vessel]? = some v) (hContact : v.groundContact = true) :
    ConsumeKeyBuffered self OAPI_KEY_N syst s = some (true, ParkVessel self.Vessel s) := by
  have hk : ¬ OAPI_KEY_N = OAPI_KEY_O := by decide
  simp only [ConsumeKeyBuffered, if_neg hk, if_true, hv, hContact]

theorem keyN_confirm_eq (self : Parker) (syst : Double) (s : Sim) (v : VESSEL)
    (hv : s.vessels[self.Vessel]? = some v) (hContact : v.groundContact = false)
    (hWindow : s.wantToLand = true ∧
      syst.toRat < roundDouble (s.wantToLandTime.toRat + 5)) :
    ConsumeKeyBuffered self OAPI_KEY_N syst s = some (true, ParkVessel self.Vessel s) := by
  have hk : ¬ OAPI_KEY_N = OAPI_KEY_O := by decide
  have hc : ¬ v.groundContact = true := by rw [hContact]; decide
  simp only [ConsumeKeyBuffered, if_neg hk, if_true, hv, if_neg hc, if_pos hWindow]

theorem keyN_arm_eq (self : Parker) (syst : Double) (s : Sim) (v : VESSEL)
    (hv : s.vessels[self.Vessel]? = some v) (hContact : v.groundContact = false)
    (hWindow : ¬ (s.wantToLand = true ∧
      syst.toRat < roundDouble (s.wantToLandTime.toRat + 5))) :
    ConsumeKeyBuffered self OAPI_KEY_N syst s
      = some (true, { s with wantToLand := true, wantToLandTime := syst }) := by
  have hk : ¬ OAPI_KEY_N = OAPI_KEY_O := by decide
  have hc : ¬ v.groundContact = true := by rw [hContact]; decide
  simp only [ConsumeKeyBuffered, if_neg hk, if_true, hv, if_neg hc, if_neg hWindow]

theorem keyM_eq (self : Parker) (syst : Double) (s : Sim) :
    ConsumeKeyBuffered self OAPI_KEY_M syst s
      = some (true, { s with ParkMode := (wrapInt32 (s.ParkMode + 1)).tmod LASTENTRY }) := by
  have hk1 : ¬ OAPI_KEY_M = OAPI_KEY_O := by decide
  have hk2 : ¬ OAPI_KEY_M = OAPI_KEY_N := by decide
  simp only [ConsumeKeyBuffered, if_neg hk1, if_neg hk2, if_true]

/-! ## Lemmas on the policy mode -/

theorem opcPreStepBody_ParkMode (i : Nat) (s : Sim) :
    (opcPreStepBody i s).ParkMode = s.ParkMode := by
  rw [opcPreStepBody_eq]; split
  · exact ParkVessel_ParkMode i s
  · rfl

theorem opcPreStepLoop_ParkMode (fuel : Nat) :
    ∀ (i : Nat) (s : Sim), (opcPreStepLoop fuel i s).ParkMode = s.ParkMode := by
  induction fuel with
  | zero => intro i s; rfl
  | succ fuel ih =>
    intro i s
    rw [opcPreStepLoop]; split
    · rw [ih, opcPreStepBody_ParkMode]
    · rfl

theorem opcPreStep_ParkMode (s : Sim) : (opcPreStep s).ParkMode = s.ParkMode := by
  unfold opcPreStep; split
  · exact opcPreStepLoop_ParkMode _ 0 s
  · rfl

theorem ConsumeKeyBuffered_ParkMode_defined (self : Parker) (key : Nat) (syst : Double)
    (s s' : Sim) (b : Bool) (hMode : s.ParkMode = LOWSPEED ∨ s.ParkMode = GLUE)
    (hRun : ConsumeKeyBuffered self key syst s = some (b, s')) :
    s'.ParkMode = LOWSPEED ∨ s'.ParkMode = GLUE := by
  unfold ConsumeKeyBuffered at hRun
  split at hRun
  · cases hRun; exact hMode
  · split at hRun
    · split at hRun
      · cases hRun
      · split at hRun
        · cases hRun; rw [ParkVessel_ParkMode]; exact hMode
        · split at hRun
          · cases hRun; rw [ParkVessel_ParkMode]; exact hMode
          · cases hRun; exact hMode
    · split at hRun
      · cases hRun
        rcases hMode with h | h
        · right; show (wrapInt32 (s.ParkMode + 1)).tmod LASTENTRY = GLUE; rw [h]; decide
        · left; show (wrapInt32 (s.ParkMode + 1)).tmod LASTENTRY = LOWSPEED; rw [h]; decide
      · cases hRun; exact hMode

theorem InitModule_ParkMode_of_nonneg (cfg : Config) (s : Sim) (n : Int)
    (hItem : cfg.DefParkMode = some n) (hn : 0 ≤ n) :
    (InitModule cfg s).1.ParkMode = LOWSPEED ∨ (InitModule cfg s).1.ParkMode = GLUE := by
  have hmode : (InitModule cfg s).1.ParkMode = n.tmod LASTENTRY := by
    simp [InitModule, hItem]
  rw [hmode, Int.tmod_eq_emod hn (by decide)]
  show n % 2 = 0 ∨ n % 2 = 1
  omega

theorem InitModule_ParkMode_of_unread (cfg : Config) (s : Sim)
    (hItem : cfg.DefParkMode = none) :
    (InitModule cfg s).1.ParkMode = LOWSPEED := by
  simp [InitModule, hItem, LOWSPEED, LASTENTRY]

/-! ## The auto-park evaluator -/

/-- C2: a vessel with at least one thruster at a level other than 0, wherever
in the thruster list, is not parked by a run of `opcPreStep`, whatever the
mode, the ground speed and the speed limit are; and the thruster scan that
stops at the first active thruster ends with `thrustersActive = 0` exactly when
every thruster level is 0. -/
theorem opcPreStep_active_thruster_not_parked (s : Sim) (i : Nat) (v : VESSEL)
    (hv : s.vessels[i]? = some v)
    (hActive : ∃ level ∈ v.thrusterLevels, level ≠ 0) :
    i ∉ parkedThisStep s ∧
      ∀ levels : List ℚ, thrusterLoop levels 0 = 0 ↔ ∀ level ∈ levels, level = 0 := by
  refine ⟨?_, thrusterLoop_zero_iff⟩
  intro hmem
  have h := (mem_parkedThisStep s i v hv).mp hmem
  obtain ⟨level, hin, hne⟩ := hActive
  exact hne ((thrusterLoop_zero_iff v.thrusterLevels).mp h.2.2.2.1 level hin)

/-- Witness for C2 on `sampleSim` in GLUE mode: vessel 2 has its middle thruster
at level 0.5. -/
theorem opcPreStep_active_thruster_not_parked_witness :
    2 ∉ parkedThisStep { sampleSim with ParkMode := GLUE } ∧
      ∀ levels : List ℚ, thrusterLoop levels 0 = 0 ↔ ∀ level ∈ levels, level = 0 :=
  opcPreStep_active_thruster_not_parked { sampleSim with ParkMode := GLUE } 2
    { restingVessel 0 with thrusterLevels := [0, 1 / 2, 0] } rfl
    ⟨1 / 2, by simp, by norm_num⟩

/-- C3: with `AutoPark` false a run of `opcPreStep` parks no vessel and returns
the state it was given: the policy, the pending request, the vessels and the
log are unchanged. -/
theorem opcPreStep_disabled (s : Sim) (hOff : s.AutoPark = false) :
    parkedThisStep s = [] ∧ opcPreStep s = s := by
  have h : opcPreStep s = s := by simp [opcPreStep, hOff]
  refine ⟨?_, h⟩
  unfold parkedThisStep
  rw [h]; simp

/-- Witness for C3 on `sampleSim` in GLUE mode with auto-park switched off. -/
theorem opcPreStep_disabled_witness :
    parkedThisStep { sampleSim with AutoPark := false, ParkMode := GLUE } = [] ∧
      opcPreStep { sampleSim with AutoPark := false, ParkMode := GLUE }
        = { sampleSim with AutoPark := false, ParkMode := GLUE } :=
  opcPreStep_disabled { sampleSim with AutoPark := false, ParkMode := GLUE } rfl

/-- C5: a run of `opcPreStep` never parks a vessel in flight status 1 (landed)
or 3 (docked landed), nor a vessel in status 0 or 2 without ground contact,
whatever the policy, ground speed and thruster levels are; and in any later
state in which a vessel is still as `ParkVessel` left it, a run of `opcPreStep`
does not park that vessel again. -/
theorem opcPreStep_skips_landed_and_airborne (s : Sim) (i : Nat) (v : VESSEL)
    (hv : s.vessels[i]? = some v) :
    ((v.flightStatus = 1 ∨ v.flightStatus = 3 ∨
        ((v.flightStatus = 0 ∨ v.flightStatus = 2) ∧ v.groundContact = false)) →
      i ∉ parkedThisStep s) ∧
      ∀ later : Sim, later.vessels[i]? = (ParkVessel i s).vessels[i]? →
        i ∉ parkedThisStep later := by
  constructor
  · intro hSkip hmem
    have h := (mem_parkedThisStep s i v hv).mp hmem
    rcases hSkip with h1 | h3 | ⟨_, hc⟩
    · rcases h.2.1 with h0 | h2 <;> omega
    · rcases h.2.1 with h0 | h2 <;> omega
    · rw [h.2.2.1] at hc; cases hc
  · intro later hlater hmem
    obtain ⟨v', hv', hst⟩ := (ParkVessel_of_some i s v hv).2.2.2
    rw [hv'] at hlater
    have h := (mem_parkedThisStep later i v' hlater).mp hmem
    rcases h.2.1 with h0 | h2 <;> omega

/-- Witness for C5 on `sampleSim` in GLUE mode: vessel 3 is airborne and is not
parked, and vessel 1, which rests below the limit, is not parked again once
`ParkVessel` has landed it. -/
theorem opcPreStep_skips_landed_and_airborne_witness :
    3 ∉ parkedThisStep { sampleSim with ParkMode := GLUE } ∧
      ∀ later : Sim,
        later.vessels[1]? = (ParkVessel 1 { sampleSim with ParkMode := GLUE }).vessels[1]? →
          1 ∉ parkedThisStep later :=
  ⟨(opcPreStep_skips_landed_and_airborne { sampleSim with ParkMode := GLUE } 3 airborneVessel
      rfl).1 (Or.inr (Or.inr ⟨Or.inl rfl, rfl⟩)),
    (opcPreStep_skips_landed_and_airborne { sampleSim with ParkMode := GLUE } 1
      (restingVessel (1 / 20)) rfl).2⟩

/-! ## The manual confirm gate -/

/-- C6, as the specification has it, fails at the end of the window: with a
request pending since system time 0, "land now" at system time 5, which is
`0 + 5.0` both exactly and as a double sum, on the airborne vessel 3 parks
nothing and leaves a request pending, now dated 5. -/
theorem ConsumeKeyBuffered_N_at_window_end_rearms :
    (pendingSim (seconds 0 (by decide))).wantToLand = true ∧
      (seconds 5 (by decide)).toRat
        ≤ (pendingSim (seconds 0 (by decide))).wantToLandTime.toRat + 5 ∧
      (seconds 5 (by decide)).toRat
        ≤ roundDouble ((pendingSim (seconds 0 (by decide))).wantToLandTime.toRat + 5) ∧
      (pendingSim (seconds 0 (by decide))).vessels[(sampleMFD 3).Vessel]?
        = some airborneVessel ∧
      airborneVessel.groundContact = false ∧
      ConsumeKeyBuffered (sampleMFD 3) OAPI_KEY_N (seconds 5 (by decide))
          (pendingSim (seconds 0 (by decide)))
        = some (true, { pendingSim (seconds 0 (by decide)) with
            wantToLand := true, wantToLandTime := seconds 5 (by decide) }) ∧
      ({ pendingSim (seconds 0 (by decide)) with
          wantToLand := true, wantToLandTime := seconds 5 (by decide) } : Sim).parkLog
        = (pendingSim (seconds 0 (by decide))).parkLog ∧
      ({ pendingSim (seconds 0 (by decide)) with
          wantToLand := true, wantToLandTime := seconds 5 (by decide) } : Sim).wantToLand
        = true := by
  have hle : (seconds 5 (by decide)).toRat
      ≤ (pendingSim (seconds 0 (by decide))).wantToLandTime.toRat + 5 := by
    norm_num [pendingSim, seconds, Double.toRat]
  have hge : (pendingSim (seconds 0 (by decide))).wantToLandTime.toRat + 5
      ≤ (seconds 5 (by decide)).toRat := by
    norm_num [pendingSim, seconds, Double.toRat]
  refine ⟨rfl, hle, le_roundDouble_of_le _ _ hle, rfl, rfl, ?_, rfl, rfl⟩
  exact keyN_arm_eq (sampleMFD 3) (seconds 5 (by decide)) (pendingSim (seconds 0 (by decide)))
    airborneVessel rfl rfl (fun h => not_lt.mpr (roundDouble_le_of_le _ _ hge) h.2)

/-- The confirm window ends at the double sum, not at the exact sum: with a request
pending since the double 0.3, "land now" at the double 5.3 comes strictly before
the exact sum of 0.3 and 5, but the double sum `0.3 + 5.0` is the double 5.3
itself, so the command on the airborne vessel 3 parks nothing and re-arms. -/
theorem keyN_rearms_at_rounded_sum :
    time5_3.toRat < (pendingSim time0_3).wantToLandTime.toRat + 5 ∧
      roundDouble ((pendingSim time0_3).wantToLandTime.toRat + 5) = time5_3.toRat ∧
      ConsumeKeyBuffered (sampleMFD 3) OAPI_KEY_N time5_3 (pendingSim time0_3)
        = some (true, { pendingSim time0_3 with
            wantToLand := true, wantToLandTime := time5_3 }) := by
  have hsum : roundDouble ((pendingSim time0_3).wantToLandTime.toRat + 5) = time5_3.toRat := by
    show roundDouble (time0_3.toRat + 5) = time5_3.toRat
    rw [roundDouble_eval (time0_3.toRat + 5) 2 5967269506265907 (by decide)
      (by norm_num [time0_3, Double.toRat, abs_of_pos])
      (by norm_num [time0_3, Double.toRat, abs_of_pos])
      (by norm_num [time0_3, Double.toRat, abs_lt])]
    norm_num [time5_3, Double.toRat]
  refine ⟨by norm_num [pendingSim, time0_3, time5_3, Double.toRat], hsum, ?_⟩
  exact keyN_arm_eq (sampleMFD 3) time5_3 (pendingSim time0_3) airborneVessel rfl rfl
    (fun h => lt_irrefl _ (lt_of_lt_of_eq h.2 hsum))

/-- C6, amended: with a request pending since `wantToLandTime` and a system time
strictly below the double sum `wantToLandTime + 5.0` (the exact sum rounded to
binary64), "land now" (key N) on a target vessel without ground contact calls
`ParkVessel` on it: the vessel is parked, its flight status is 1 and no
request is pending afterwards. -/
theorem ConsumeKeyBuffered_N_confirms_within_window (self : Parker) (syst : Double) (s : Sim)
    (v : VESSEL)
    (hv : s.vessels[self.Vessel]? = some v) (hContact : v.groundContact = false)
    (hPending : s.wantToLand = true)
    (hTime : syst.toRat < roundDouble (s.wantToLandTime.toRat + 5)) :
    ∃ s' v', ConsumeKeyBuffered self OAPI_KEY_N syst s = some (true, s') ∧
      s'.parkLog = s.parkLog ++ [self.Vessel] ∧
      s'.vessels[self.Vessel]? = some v' ∧ v'.flightStatus = 1 ∧
      s'.wantToLand = false := by
  obtain ⟨hlog, hwant, _, v', hv', hst⟩ := ParkVessel_of_some self.Vessel s v hv
  exact ⟨ParkVessel self.Vessel s, v',
    keyN_confirm_eq self syst s v hv hContact ⟨hPending, hTime⟩,
    hlog, hv', hst, hwant⟩

/-- Witness for C6 amended: armed at system time 0, a second "land now" at the
double 4.9 on the airborne vessel 3 parks it. -/
theorem ConsumeKeyBuffered_N_confirms_within_window_witness :
    ∃ s' v', ConsumeKeyBuffered (sampleMFD 3) OAPI_KEY_N time4_9
        (pendingSim (seconds 0 (by decide))) = some (true, s') ∧
      s'.parkLog = (pendingSim (seconds 0 (by decide))).parkLog ++ [(sampleMFD 3).Vessel] ∧
      s'.vessels[(sampleMFD 3).Vessel]? = some v' ∧ v'.flightStatus = 1 ∧
      s'.wantToLand = false :=
  ConsumeKeyBuffered_N_confirms_within_window (sampleMFD 3) time4_9
    (pendingSim (seconds 0 (by decide))) airborneVessel rfl rfl rfl
    (lt_of_lt_of_le
      (show time4_9.toRat < (seconds 5 (by decide)).toRat by
        norm_num [time4_9, seconds, Double.toRat])
      (le_roundDouble_of_le (seconds 5 (by decide)) _
        (by norm_num [pendingSim, seconds, Double.toRat])))

/-- C7: when no request is pending, or one is pending since `wantToLandTime` and
the system time is above `wantToLandTime + 5`, "land now" (key N) on a target
vessel without ground contact parks nothing, makes a request pending dated at
the system time, and changes nothing else (policy, vessels and log stay). -/
theorem ConsumeKeyBuffered_N_arms (self : Parker) (syst : Double) (s : Sim) (v : VESSEL)
    (hv : s.vessels[self.Vessel]? = some v) (hContact : v.groundContact = false)
    (hState : s.wantToLand = false ∨
      (s.wantToLand = true ∧ syst.toRat > s.wantToLandTime.toRat + 5)) :
    ∃ s', ConsumeKeyBuffered self OAPI_KEY_N syst s = some (true, s') ∧
      s'.parkLog = s.parkLog ∧ s'.vessels = s.vessels ∧
      s'.wantToLand = true ∧ s'.wantToLandTime = syst ∧
      s'.AutoPark = s.AutoPark ∧ s'.ParkMode = s.ParkMode ∧ s'.SpeedLimit = s.SpeedLimit := by
  refine ⟨{ s with wantToLand := true, wantToLandTime := syst },
    keyN_arm_eq self syst s v hv hContact ?_, rfl, rfl, rfl, rfl, rfl, rfl, rfl⟩
  rintro ⟨hp, ht⟩
  rcases hState with hf | ⟨_, hgt⟩
  · rw [hf] at hp; cases hp
  · exact not_lt.mpr (roundDouble_le_of_le syst _ (le_of_lt hgt)) ht

/-- Witness for C7: armed at system time 0, a second "land now" at the double
5.1 on the airborne vessel 3 parks nothing and re-arms the request at 5.1. -/
theorem ConsumeKeyBuffered_N_arms_witness :
    ∃ s', ConsumeKeyBuffered (sampleMFD 3) OAPI_KEY_N time5_1
        (pendingSim (seconds 0 (by decide))) = some (true, s') ∧
      s'.parkLog = (pendingSim (seconds 0 (by decide))).parkLog ∧
      s'.vessels = (pendingSim (seconds 0 (by decide))).vessels ∧
      s'.wantToLand = true ∧ s'.wantToLandTime = time5_1 ∧
      s'.AutoPark = (pendingSim (seconds 0 (by decide))).AutoPark ∧
      s'.ParkMode = (pendingSim (seconds 0 (by decide))).ParkMode ∧
      s'.SpeedLimit = (pendingSim (seconds 0 (by decide))).SpeedLimit :=
  ConsumeKeyBuffered_N_arms (sampleMFD 3) time5_1 (pendingSim (seconds 0 (by decide)))
    airborneVessel rfl rfl
    (Or.inr ⟨rfl, by norm_num [pendingSim, time5_1, seconds, Double.toRat]⟩)

/-- C8: "land now" (key N) on a target vessel with ground contact calls
`ParkVessel` on it at once, whatever the pending request and the system time
are: the vessel is parked, its flight status is 1 and no request is pending
afterwards. -/
theorem ConsumeKeyBuffered_N_ground_contact (self : Parker) (syst : Double) (s : Sim)
    (v : VESSEL)
    (hv : s.vessels[self.Vessel]? = some v) (hContact : v.groundContact = true) :
    ∃ s' v', ConsumeKeyBuffered self OAPI_KEY_N syst s = some (true, s') ∧
      s'.parkLog = s.parkLog ++ [self.Vessel] ∧
      s'.vessels[self.Vessel]? = some v' ∧ v'.flightStatus = 1 ∧
      s'.wantToLand = false := by
  obtain ⟨hlog, hwant, _, v', hv', hst⟩ := ParkVessel_of_some self.Vessel s v hv
  exact ⟨ParkVessel self.Vessel s, v',
    keyN_contact_eq self syst s v hv hContact, hlog, hv', hst, hwant⟩

/-- Witness for C8: with a request pending since 0 and long expired at system
time 100, "land now" on the resting vessel 0 parks it and clears the request. -/
theorem ConsumeKeyBuffered_N_ground_contact_witness :
    ∃ s' v', ConsumeKeyBuffered (sampleMFD 0) OAPI_KEY_N (seconds 100 (by decide))
        (pendingSim (seconds 0 (by decide))) = some (true, s') ∧
      s'.parkLog = (pendingSim (seconds 0 (by decide))).parkLog ++ [(sampleMFD 0).Vessel] ∧
      s'.vessels[(sampleMFD 0).Vessel]? = some v' ∧ v'.flightStatus = 1 ∧
      s'.wantToLand = false :=
  ConsumeKeyBuffered_N_ground_contact (sampleMFD 0) (seconds 100 (by decide))
    (pendingSim (seconds 0 (by decide))) (restingVessel (1 / 10)) rfl rfl

/-! ## The policy mode -/

/-- C9 fails on the code for a negative odd `DefParkMode`: with the item at -1,
`InitModule` stores `PARKMODE(-1 % 2)`, which is -1 and neither LOWSPEED nor
GLUE (the C++ remainder takes the sign of the dividend). -/
theorem InitModule_negative_DefParkMode :
    (InitModule { DefAutoPark := some true, DefParkMode := some (-1), DefSpeedLimit := none }
        (initialSim [])).1.ParkMode = -1 ∧
      (InitModule { DefAutoPark := some true, DefParkMode := some (-1), DefSpeedLimit := none }
        (initialSim [])).1.ParkMode ≠ LOWSPEED ∧
      (InitModule { DefAutoPark := some true, DefParkMode := some (-1), DefSpeedLimit := none }
        (initialSim [])).1.ParkMode ≠ GLUE := by
  refine ⟨?_, ?_, ?_⟩ <;> decide

/-- C10: the cycle-mode command (key M) turns LOWSPEED into GLUE and GLUE into
LOWSPEED, so from either of the two modes two commands give back the state
they started from; one command changes nothing but `ParkMode`. -/
theorem ConsumeKeyBuffered_M_cycles (self : Parker) (syst syst' : Double) (s : Sim) :
    ∃ s1 s2, ConsumeKeyBuffered self OAPI_KEY_M syst s = some (true, s1) ∧
      ConsumeKeyBuffered self OAPI_KEY_M syst' s1 = some (true, s2) ∧
      (s.ParkMode = LOWSPEED → s1.ParkMode = GLUE ∧ s2 = s) ∧
      (s.ParkMode = GLUE → s1.ParkMode = LOWSPEED ∧ s2 = s) ∧
      s1.AutoPark = s.AutoPark ∧ s1.SpeedLimit = s.SpeedLimit ∧
      s1.wantToLand = s.wantToLand ∧ s1.wantToLandTime = s.wantToLandTime ∧
      s1.vessels = s.vessels ∧ s1.parkLog = s.parkLog := by
  refine ⟨_, _, keyM_eq self syst s, keyM_eq self syst' _,
    ?_, ?_, rfl, rfl, rfl, rfl, rfl, rfl⟩
  · intro h
    have e1 : (wrapInt32 (s.ParkMode + 1)).tmod LASTENTRY = GLUE := by rw [h]; decide
    have e2 : (wrapInt32 (GLUE + 1)).tmod LASTENTRY = s.ParkMode := by rw [h]; decide
    refine ⟨e1, ?_⟩
    cases s
    simp only [Sim.mk.injEq, true_and, and_true] at *
    rw [e1]; exact e2
  · intro h
    have e1 : (wrapInt32 (s.ParkMode + 1)).tmod LASTENTRY = LOWSPEED := by rw [h]; decide
    have e2 : (wrapInt32 (LOWSPEED + 1)).tmod LASTENTRY = s.ParkMode := by rw [h]; decide
    refine ⟨e1, ?_⟩
    cases s
    simp only [Sim.mk.injEq, true_and, and_true] at *
    rw [e1]; exact e2

/-- Witness for C10 from the initial globals (mode LOWSPEED): one command gives
GLUE, two give the initial state again. -/
theorem ConsumeKeyBuffered_M_cycles_witness :
    ∃ s1 s2, ConsumeKeyBuffered (sampleMFD 0) OAPI_KEY_M (seconds 1 (by decide)) sampleSim
        = some (true, s1) ∧
      ConsumeKeyBuffered (sampleMFD 0) OAPI_KEY_M (seconds 2 (by decide)) s1 = some (true, s2) ∧
      s1.ParkMode = GLUE ∧ s2 = sampleSim := by
  obtain ⟨s1, s2, h1, h2, hlow, _⟩ :=
    ConsumeKeyBuffered_M_cycles (sampleMFD 0) (seconds 1 (by decide)) (seconds 2 (by decide))
      sampleSim
  exact ⟨s1, s2, h1, h2, hlow rfl⟩

end ParkingBrake
